import Mathlib

/-!
Verification of the slither-style snake game core
(src/src/components/GameCanvas.tsx) against its specification.

The per-frame simulation, collision detection, death handling, throttled
push and remote-cache update logic of GameCanvas.tsx are shallowly embedded
below.  JavaScript numbers are modelled as real numbers; Math.random() calls
are modelled as explicit parameters in [0, 1); wall-clock times are integers
(milliseconds).  Each definition carries a comment pointing at the source
lines it translates.
-/

namespace Slither

noncomputable section

open Classical

/-- A 2-dimensional point, used for positions and body segments
(GameCanvas.tsx uses plain `{ x, y }` records). -/
structure Point where
  x : ℝ
  y : ℝ

/-- GameCanvas.tsx line 4: `const WORLD_WIDTH = 5000`. -/
def WORLD_WIDTH : ℝ := 5000

/-- GameCanvas.tsx line 5: `const WORLD_HEIGHT = 5000`. -/
def WORLD_HEIGHT : ℝ := 5000

/-- GameCanvas.tsx line 7: `const INITIAL_SNAKE_LENGTH = 22`. -/
def INITIAL_SNAKE_LENGTH : ℕ := 22

/-- GameCanvas.tsx line 8: `const SEGMENT_SPACING = 6`. -/
def SEGMENT_SPACING : ℝ := 6

/-- GameCanvas.tsx line 9: `const BASE_SPEED = 3`. -/
def BASE_SPEED : ℝ := 3

/-- GameCanvas.tsx line 10: `const BOOST_SPEED = 6`. -/
def BOOST_SPEED : ℝ := 6

/-- Euclidean distance as computed throughout GameCanvas.tsx:
`Math.sqrt(dx * dx + dy * dy)` with `dx = a.x - b.x`, `dy = a.y - b.y`. -/
def distPts (p q : Point) : ℝ :=
  Real.sqrt ((p.x - q.x) * (p.x - q.x) + (p.y - q.y) * (p.y - q.y))

/-- Food row, from the `Food` interface in src/unnamed/part_000
(id, position_x, position_y, color, value). -/
structure Food where
  id : String
  position_x : ℝ
  position_y : ℝ
  color : String
  value : ℝ

/-- Position of a food item as a `Point`. -/
def Food.pos (f : Food) : Point := ⟨f.position_x, f.position_y⟩

/-- Player row, from the `Player` interface in src/unnamed/part_000. -/
structure Player where
  id : String
  name : String
  score : ℝ
  position_x : ℝ
  position_y : ℝ
  angle : ℝ
  color : String
  segments : List Point
  is_alive : Bool
  last_updated : String

/-- Local head radius, GameCanvas.tsx lines 326 and 352:
`const headRadius = 10 + playerRef.current.score * 0.1`. -/
def headRadius (score : ℝ) : ℝ := 10 + score * 0.1

/-- Radius used for remote entities, GameCanvas.tsx line 360:
`const otherRadius = 8 + other.score * 0.08` (note the distinct, smaller
constants compared with `headRadius`). -/
def otherRadius (score : ℝ) : ℝ := 8 + score * 0.08

/-- Boost score decay, GameCanvas.tsx lines 254-258: when boosting and
`score > INITIAL_SNAKE_LENGTH`, with probability 0.3 per frame
(`Math.random() < 0.3`, the random draw being `rDecay` here) the score drops
by 0.1 but is floored at `INITIAL_SNAKE_LENGTH` via `Math.max`. -/
def decayScore (boosting : Bool) (rDecay score : ℝ) : ℝ :=
  if boosting = true ∧ (INITIAL_SNAKE_LENGTH : ℝ) < score ∧ rDecay < 0.3 then
    max (INITIAL_SNAKE_LENGTH : ℝ) (score - 0.1)
  else score

/-- Hard clamp, GameCanvas.tsx lines 279-280:
`Math.max(50, Math.min(WORLD_WIDTH - 50, newX))` and the same for y. -/
def clampCoord (lo hi v : ℝ) : ℝ := max lo (min hi v)

/-- New x coordinate of the head, GameCanvas.tsx lines 276 and 279:
`newX = position_x + Math.cos(targetAngle) * speed`, then clamped. -/
def stepX (x angle speed : ℝ) : ℝ :=
  clampCoord 50 (WORLD_WIDTH - 50) (x + Real.cos angle * speed)

/-- New y coordinate of the head, GameCanvas.tsx lines 277 and 280:
`newY = position_y + Math.sin(targetAngle) * speed`, then clamped. -/
def stepY (y angle speed : ℝ) : ℝ :=
  clampCoord 50 (WORLD_HEIGHT - 50) (y + Real.sin angle * speed)

/-- One chain-relaxation step, GameCanvas.tsx lines 286-298: `prev` is the
already-computed new position `newSegments[i]`, `curr` is the OLD position
`segments[i]`; if their distance exceeds `SEGMENT_SPACING` the pushed point
is `prev - (prev - curr) * (SEGMENT_SPACING / dist)`, otherwise `curr` is
pushed unchanged. -/
def relaxPoint (prev curr : Point) : Point :=
  let dx := prev.x - curr.x
  let dy := prev.y - curr.y
  let dist := Real.sqrt (dx * dx + dy * dy)
  if SEGMENT_SPACING < dist then
    ⟨prev.x - dx * (SEGMENT_SPACING / dist), prev.y - dy * (SEGMENT_SPACING / dist)⟩
  else curr

/-- The loop of GameCanvas.tsx lines 283-299 unrolled: starting from the new
head, each iteration pushes `relaxPoint` of the last pushed point and the
next element of `old`.  The loop body at index i reads `prev = newSegments[i]`
(the point pushed by the previous iteration; the `|| segments[i]` fallback in
the source is dead code since `newSegments[i]` always exists) and
`curr = segments[i]`. -/
def relaxFollow (prev : Point) : List Point → List Point
  | [] => []
  | c :: rest => relaxPoint prev c :: relaxFollow (relaxPoint prev c) rest

/-- The full rebuilt chain, GameCanvas.tsx lines 282-301: `newSegments`
starts as `[newHead]` and the loop runs for `i = 0 .. segments.length - 2`,
consuming `segments[0] .. segments[length-2]`, i.e. all of `segments` except
its last element (`dropLast`). -/
def relaxChain (head : Point) (old : List Point) : List Point :=
  head :: relaxFollow head old.dropLast

/-- Initial body chain, GameCanvas.tsx lines 100-103: segment i is at
`(startX - i * SEGMENT_SPACING, startY)` for `i < INITIAL_SNAKE_LENGTH`. -/
def initSegments (startX startY : ℝ) : List Point :=
  (List.range INITIAL_SNAKE_LENGTH).map fun (i : ℕ) => ⟨startX - (i : ℝ) * SEGMENT_SPACING, startY⟩

/-- Food-consumption test, GameCanvas.tsx line 333:
`dist < headRadius + 5` where `dist` is head-to-food Euclidean distance. -/
def eats (head : Point) (hr : ℝ) (f : Food) : Prop :=
  distPts head f.pos < hr + 5

/-- GameCanvas.tsx lines 323-345 (`checkFoodCollision`): `headRadius` is
computed once from the score before the loop; the `forEach` over the food
cache then, for every food within range, adds `food.value` to the score and
deletes the food id from the cache (here: appends it to the removal list).
The optional replacement spawn (line 340-342) does not affect score or
removals and is not modelled. -/
def checkFoodCollision (head : Point) (score : ℝ) (foods : List Food) : ℝ × List String :=
  let hr := headRadius score
  foods.foldl
    (fun st f => if eats head hr f then (st.1 + f.value, st.2 ++ [f.id]) else st)
    (score, [])

/-- Linear scan of a segment list against radius `r`, as in the collision
loops of GameCanvas.tsx lines 355-366 and 369-379: true iff some scanned
segment is strictly closer to `head` than `r`. -/
def hitScan (head : Point) (r : ℝ) : List Point → Prop
  | [] => False
  | s :: rest => distPts head s < r ∨ hitScan head r rest

/-- Collision of the local head with ONE remote entity, GameCanvas.tsx lines
355-365: the loop starts at index 1 (`for (let i = 1; ...)`), skipping the
remote head segment, and compares the distance with
`headRadius + otherRadius`. -/
def entityHit (head : Point) (hr : ℝ) (other : Player) : Prop :=
  hitScan head (hr + otherRadius other.score) (other.segments.drop 1)

/-- Self-collision, GameCanvas.tsx lines 369-378: the loop starts at index 3
(`for (let i = 3; ...)`) and compares the distance with `headRadius` alone. -/
def selfHit (head : Point) (hr : ℝ) (segs : List Point) : Prop :=
  hitScan head hr (segs.drop 3)

/-- Number of `handleDeath()` invocations performed by one call of
`checkPlayerCollision` (GameCanvas.tsx lines 347-380).  The `return` inside
the `forEach` callback (line 364) only exits that one entity's inner loop,
so the `forEach` goes on to the next remote entity: every remote entity with
an overlapping body segment contributes one `handleDeath()` call.  The
self-collision loop after the `forEach` runs unconditionally and its
`return` (line 377) exits the whole function, contributing at most one more
call.  `handleDeath` itself (lines 382-406) never clears `playerIdRef` or
`playerRef`, so each invocation reaches `onGameOver(finalScore)`. -/
def deathCalls (head : Point) (score : ℝ) (others : List Player) (ownSegs : List Point) : ℕ :=
  (others.countP fun o => decide (entityHit head (headRadius score) o))
    + (if selfHit head (headRadius score) ownSegs then 1 else 0)

/-- Whether the remote-entity loop of `checkPlayerCollision` (GameCanvas.tsx
lines 354-367) triggers death: some cached remote entity has a scanned
segment overlapping the local head. -/
def entityCollisionTriggersDeath (head : Point) (score : ℝ) (others : List Player) : Prop :=
  ∃ o ∈ others, entityHit head (headRadius score) o

/-- Local simulation state mutated by `updateGame`
(position, angle, score, body chain of `playerRef.current`). -/
structure LocalState where
  position_x : ℝ
  position_y : ℝ
  angle : ℝ
  score : ℝ
  segments : List Point

/-- One frame of the local simulation, GameCanvas.tsx lines 233-304
(`updateGame`, up to and including `checkFoodCollision`; the network push
and `checkPlayerCollision` are modelled separately): set the angle to
`targetAngle = atan2(mouse - center)`, compute
`speed = (boosting ? BOOST_SPEED : BASE_SPEED) * deltaTime`, apply the boost
score decay, advance and clamp the head, rebuild the chain, then run the
food check with the new head and decayed score.  Returns the new state and
the ids of the foods consumed this frame. -/
def updateGame (p : LocalState) (targetAngle : ℝ) (boosting : Bool)
    (deltaTime rDecay : ℝ) (foods : List Food) : LocalState × List String :=
  let speed := (if boosting then BOOST_SPEED else BASE_SPEED) * deltaTime
  let score1 := decayScore boosting rDecay p.score
  let newX := stepX p.position_x targetAngle speed
  let newY := stepY p.position_y targetAngle speed
  let head : Point := ⟨newX, newY⟩
  let segs := relaxChain head p.segments
  let res := checkFoodCollision head score1 foods
  ({ position_x := newX, position_y := newY, angle := targetAngle,
     score := res.1, segments := segs }, res.2)

/-- Throttle test of GameCanvas.tsx line 306:
`now - (playerRef.current as any).lastSync > 100`.  The `lastSync` field is
not a column of the players table and is never initialised, so until the
first push it is `undefined` (modelled as `none`); in JavaScript
`now - undefined` is `NaN` and `NaN > 100` is `false`. -/
def shouldSync (lastSync : Option ℤ) (now : ℤ) : Bool :=
  match lastSync with
  | none => false
  | some t => decide (100 < now - t)

/-- One frame of the push throttle, GameCanvas.tsx lines 306-320: if the
test passes, the full record is pushed and `lastSync` is set to `now`;
otherwise nothing happens.  Returns the new `lastSync` and whether a push
occurred. -/
def syncStep (lastSync : Option ℤ) (now : ℤ) : Option ℤ × Bool :=
  if shouldSync lastSync now then (some now, true) else (lastSync, false)

/-- Number of pushes performed over a session: fold `syncStep` over the
sequence of frame times, starting from the uninitialised `lastSync = none`
of GameCanvas.tsx (the field is first written at line 319, inside the
guarded branch). -/
def pushCount (frames : List ℤ) : ℕ :=
  (frames.foldl
    (fun (st : Option ℤ × ℕ) now =>
      let r := syncStep st.1 now
      (r.1, st.2 + (if r.2 = true then 1 else 0)))
    (none, 0)).2

/-- The Remote State Cache `otherPlayersRef`, a map from player id to the
last-known snapshot (GameCanvas.tsx line 29). -/
def Cache : Type := String → Option Player

/-- The empty cache. -/
def emptyCache : Cache := fun _ => none

/-- `otherPlayersRef.current.set(player.id, player)`. -/
def setCache (c : Cache) (p : Player) : Cache :=
  fun k => if k = p.id then some p else c k

/-- Inbound change event on the players table, GameCanvas.tsx lines 170-179:
the handler distinguishes `eventType === 'DELETE'` (carrying `old.id`) from
the other event types (INSERT and UPDATE, both carrying the new row and
handled identically). -/
inductive PlayerEvent where
  | upsert (p : Player)
  | del (oldId : String)

/-- The id carried by an event. -/
def eventId : PlayerEvent → String
  | .upsert p => p.id
  | .del oldId => oldId

/-- The players-table event handler, GameCanvas.tsx lines 171-178: DELETE
removes `old.id` from the cache; otherwise the row is stored only when
`player.id !== playerIdRef.current && player.is_alive`. -/
def applyPlayerEvent (localId : String) (ev : PlayerEvent) (c : Cache) : Cache :=
  match ev with
  | .del oldId => fun k => if k = oldId then none else c k
  | .upsert p => if p.id ≠ localId ∧ p.is_alive = true then setCache c p else c

/-- The periodic roster pull `loadOtherPlayers`, GameCanvas.tsx lines
189-202: the cache is cleared and repopulated from the query result
(`forEach set`, later rows overwriting earlier ones with the same id). -/
def replaceCache (data : List Player) : Cache :=
  data.foldl setCache emptyCache

/-- Cache states reachable in a session with local id `localId`: the cache
starts empty (line 29), and is mutated only by inbound change events (lines
170-179) and by roster pulls (lines 189-205), whose query is filtered
server-side by `.eq('is_alive', true).neq('id', playerIdRef.current)`
(lines 190-194) — hence every pulled row is alive and not the local id. -/
inductive ReachableCache (localId : String) : Cache → Prop
  | init : ReachableCache localId emptyCache
  | event (c : Cache) (ev : PlayerEvent) :
      ReachableCache localId c → ReachableCache localId (applyPlayerEvent localId ev c)
  | pull (c : Cache) (data : List Player) :
      ReachableCache localId c →
      (∀ p ∈ data, p.is_alive = true ∧ p.id ≠ localId) →
      ReachableCache localId (replaceCache data)

/-- A food record produced by `handleDeath` (GameCanvas.tsx lines 390-395);
the remote store assigns the id on insert, so the record has none yet. -/
structure DeathFood where
  position_x : ℝ
  position_y : ℝ
  color : String
  value : ℝ

/-- Death-scatter food, GameCanvas.tsx lines 389-395: one record per body
segment, at `seg + (Math.random() - 0.5) * 20` on each axis, with a random
color and value 1.  The per-record `Math.random()` draws are passed as the
sequences `r1`, `r2` (each in [0, 1)) and the colors as `col`. -/
def foodFromDeath (segments : List Point) (r1 r2 : ℕ → ℝ) (col : ℕ → String) : List DeathFood :=
  (List.range segments.length).map fun i =>
    { position_x := (segments.getD i ⟨0, 0⟩).x + (r1 i - 0.5) * 20
      position_y := (segments.getD i ⟨0, 0⟩).y + (r2 i - 0.5) * 20
      color := col i
      value := 1 }

/-- Modelled from the spec (§4.1.5, §8): the spec's description of one
chain-relaxation step, in which C is "this segment's old position" — the old
position of the segment being recomputed itself.  Kept separate from
`relaxPoint` (the source's actual step) for comparison. -/
def specRelaxPoint (P C : Point) : Point :=
  let d := distPts P C
  if d ≤ SEGMENT_SPACING then C
  else ⟨P.x + (C.x - P.x) * (SEGMENT_SPACING / d), P.y + (C.y - P.y) * (SEGMENT_SPACING / d)⟩

/-! ## Helper lemmas -/

/-- `relaxFollow` pushes exactly one point per consumed old segment. -/
theorem relaxFollow_length (l : List Point) : ∀ prev : Point, (relaxFollow prev l).length = l.length := by
  induction l with
  | nil => intro prev; rfl
  | cons c rest ih =>
      intro prev
      simp only [relaxFollow, List.length_cons, ih]

/-- The rebuilt chain has as many segments as the old one (for a non-empty
old chain): `1 + (length - 1) = length`. -/
theorem relaxChain_length (head : Point) (old : List Point) (h : old ≠ []) :
    (relaxChain head old).length = old.length := by
  have hpos : 0 < old.length := List.length_pos.mpr h
  simp only [relaxChain, List.length_cons, relaxFollow_length, List.length_dropLast]
  omega

/-- Bounds of the hard clamp. -/
theorem clampCoord_bounds (lo hi v : ℝ) (h : lo ≤ hi) :
    lo ≤ clampCoord lo hi v ∧ clampCoord lo hi v ≤ hi := by
  constructor
  · exact le_max_left _ _
  · exact max_le h (min_le_left _ _)

/-! ## C4: position hard clamp -/

/-- C4: for every tick and any target angle, boost flag, delta-time, score
decay draw and food cache, the head position after `updateGame` satisfies
`50 ≤ x ≤ WORLD_WIDTH - 50` and `50 ≤ y ≤ WORLD_HEIGHT - 50` (inset 50,
world 5000 by 5000): the position is hard-clamped. -/
theorem c4_position_clamped (p : LocalState) (targetAngle : ℝ) (boosting : Bool)
    (deltaTime rDecay : ℝ) (foods : List Food) :
    50 ≤ (updateGame p targetAngle boosting deltaTime rDecay foods).1.position_x ∧
    (updateGame p targetAngle boosting deltaTime rDecay foods).1.position_x ≤ WORLD_WIDTH - 50 ∧
    50 ≤ (updateGame p targetAngle boosting deltaTime rDecay foods).1.position_y ∧
    (updateGame p targetAngle boosting deltaTime rDecay foods).1.position_y ≤ WORLD_HEIGHT - 50 := by
  have hx : (updateGame p targetAngle boosting deltaTime rDecay foods).1.position_x
      = stepX p.position_x targetAngle ((if boosting then BOOST_SPEED else BASE_SPEED) * deltaTime) := rfl
  have hy : (updateGame p targetAngle boosting deltaTime rDecay foods).1.position_y
      = stepY p.position_y targetAngle ((if boosting then BOOST_SPEED else BASE_SPEED) * deltaTime) := rfl
  rw [hx, hy, stepX, stepY]
  have hw : (50 : ℝ) ≤ WORLD_WIDTH - 50 := by rw [WORLD_WIDTH]; norm_num
  have hh : (50 : ℝ) ≤ WORLD_HEIGHT - 50 := by rw [WORLD_HEIGHT]; norm_num
  exact ⟨(clampCoord_bounds _ _ _ hw).1, (clampCoord_bounds _ _ _ hw).2,
    (clampCoord_bounds _ _ _ hh).1, (clampCoord_bounds _ _ _ hh).2⟩

/-! ## C7: boost decay never drops the score below the initial length -/

/-- C7: if the score is at least `INITIAL_SNAKE_LENGTH` (22) before the
boost-decay step, it still is afterwards: the 0.1 decrement (applied only
while boosting, only above the initial length, with probability draw
`rDecay < 0.3`) is floored at the initial length by the `Math.max`. -/
theorem c7_decay_floored_at_initial_length (boosting : Bool) (rDecay score : ℝ)
    (h : (INITIAL_SNAKE_LENGTH : ℝ) ≤ score) :
    (INITIAL_SNAKE_LENGTH : ℝ) ≤ decayScore boosting rDecay score := by
  rw [decayScore]
  split
  · exact le_max_left _ _
  · exact h

/-- Witness for C7 at a concrete input: score 22.05, boosting, decay draw
0.1 (so the decrement fires and the floor is hit). -/
theorem c7_witness :
    (INITIAL_SNAKE_LENGTH : ℝ) ≤ decayScore true 0.1 22.05 :=
  c7_decay_floored_at_initial_length true 0.1 22.05
    (by rw [INITIAL_SNAKE_LENGTH]; norm_num)

/-! ## C10: the per-frame step preserves the body-segment count -/

/-- C10: a frame of `updateGame` leaves the number of body segments
unchanged (for the non-empty chains that actually occur), and the initial
chain built by `initializeGame` has exactly `INITIAL_SNAKE_LENGTH` (22)
segments; food consumption changes only the score and the removal list,
never the chain, so the chain stays at 22 segments for the whole session. -/
theorem c10_segment_count_preserved (p : LocalState) (targetAngle : ℝ) (boosting : Bool)
    (deltaTime rDecay : ℝ) (foods : List Food) (h : p.segments ≠ []) :
    ((updateGame p targetAngle boosting deltaTime rDecay foods).1.segments).length
      = p.segments.length ∧
    ∀ sx sy : ℝ, (initSegments sx sy).length = INITIAL_SNAKE_LENGTH := by
  constructor
  · have hs : (updateGame p targetAngle boosting deltaTime rDecay foods).1.segments
        = relaxChain ⟨stepX p.position_x targetAngle ((if boosting then BOOST_SPEED else BASE_SPEED) * deltaTime),
                      stepY p.position_y targetAngle ((if boosting then BOOST_SPEED else BASE_SPEED) * deltaTime)⟩
            p.segments := rfl
    rw [hs, relaxChain_length _ _ h]
  · intro sx sy
    simp only [initSegments, List.length_map, List.length_range]

/-- Witness for C10 at a concrete input: a two-segment chain, no boost. -/
theorem c10_witness :
    ((updateGame ⟨100, 100, 0, 22, [⟨100, 100⟩, ⟨94, 100⟩]⟩ 0 false 1 1 []).1.segments).length
      = ([⟨100, 100⟩, ⟨94, 100⟩] : List Point).length :=
  (c10_segment_count_preserved ⟨100, 100, 0, 22, [⟨100, 100⟩, ⟨94, 100⟩]⟩ 0 false 1 1 []
    (by simp)).1

/-! ## C2: the throttled push never fires (lastSync is never initialised) -/

/-- C2 (refuting the claim): starting from the uninitialised
`lastSync = none`, the throttle test of line 306 is `NaN > 100 = false` on
every frame, `lastSync` is therefore never written, and no push ever occurs
during the session — in particular not on the first frame 100ms after
session start, where the claim requires one. -/
theorem c2_no_push_ever_occurs : ∀ frames : List ℤ, pushCount frames = 0 := by
  have key : ∀ (frames : List ℤ) (n : ℕ),
      frames.foldl
        (fun (st : Option ℤ × ℕ) now =>
          let r := syncStep st.1 now
          (r.1, st.2 + (if r.2 = true then 1 else 0)))
        (none, n) = (none, n) := by
    intro frames
    induction frames with
    | nil => intro n; rfl
    | cons t rest ih =>
        intro n
        have hstep : syncStep none t = (none, false) := by
          rw [syncStep, shouldSync]
          simp
        simp only [List.foldl_cons, hstep]
        exact ih n
  intro frames
  rw [pushCount, key frames 0]

/-! ## C8: the remote cache never contains the local identity -/

/-- Invariant of the Remote State Cache: every stored snapshot is alive and
is not stored under the local id. -/
def AliveInv (localId : String) (c : Cache) : Prop :=
  ∀ k p, c k = some p → p.is_alive = true ∧ k ≠ localId

/-- `setCache` preserves the invariant when the inserted row is alive and
not the local one. -/
theorem setCache_inv (localId : String) (c : Cache) (q : Player)
    (hc : AliveInv localId c) (ha : q.is_alive = true) (hi : q.id ≠ localId) :
    AliveInv localId (setCache c q) := by
  intro k p hk
  rw [setCache] at hk
  by_cases hkq : k = q.id
  · rw [if_pos hkq] at hk
    cases hk
    exact ⟨ha, hkq ▸ hi⟩
  · rw [if_neg hkq] at hk
    exact hc k p hk

/-- Folding `setCache` over alive, non-local rows preserves the invariant. -/
theorem foldl_setCache_inv (localId : String) (data : List Player) :
    ∀ acc : Cache, AliveInv localId acc →
      (∀ p ∈ data, p.is_alive = true ∧ p.id ≠ localId) →
      AliveInv localId (data.foldl setCache acc) := by
  induction data with
  | nil => intro acc hacc _; exact hacc
  | cons q rest ih =>
      intro acc hacc hdata
      rw [List.foldl_cons]
      exact ih (setCache acc q)
        (setCache_inv localId acc q hacc (hdata q (by simp)).1 (hdata q (by simp)).2)
        (fun p hp => hdata p (by simp [hp]))

/-- Every reachable cache satisfies the invariant. -/
theorem reachable_aliveInv (localId : String) (c : Cache)
    (h : ReachableCache localId c) : AliveInv localId c := by
  induction h with
  | init => intro k p hk; cases hk
  | event c ev ih =>
      rename_i ihInv
      intro k p hk
      match ev with
      | .del oldId =>
          simp only [applyPlayerEvent] at hk
          by_cases hko : k = oldId
          · rw [if_pos hko] at hk; cases hk
          · rw [if_neg hko] at hk; exact ihInv k p hk
      | .upsert q =>
          rw [applyPlayerEvent] at hk
          by_cases hq : q.id ≠ localId ∧ q.is_alive = true
          · rw [if_pos hq] at hk
            exact setCache_inv localId c q ihInv hq.2 hq.1 k p hk
          · rw [if_neg hq] at hk
            exact ihInv k p hk
  | pull c data ihReach hdata ih =>
      exact foldl_setCache_inv localId data emptyCache (fun k p hk => by cases hk) hdata

/-- C8: in every reachable cache state the local identity is absent; every
inbound player-change event carrying the local id leaves the cache unchanged
(the DELETE branch removes a key that is not there, the INSERT and UPDATE
branch is skipped by the identity check); and an upsert event that changes
the cache at all carries an alive, non-local row. -/
theorem c8_cache_excludes_local (localId : String) (c : Cache)
    (h : ReachableCache localId c) :
    c localId = none
    ∧ (∀ ev : PlayerEvent, eventId ev = localId → applyPlayerEvent localId ev c = c)
    ∧ (∀ q : Player, ∀ k : String,
        applyPlayerEvent localId (PlayerEvent.upsert q) c k ≠ c k →
        q.is_alive = true ∧ q.id ≠ localId) := by
  have hinv := reachable_aliveInv localId c h
  have hnone : c localId = none := by
    cases hcl : c localId with
    | none => rfl
    | some p => exact absurd rfl (hinv localId p hcl).2
  refine ⟨hnone, ?_, ?_⟩
  · intro ev hev
    match ev with
    | .del oldId =>
        have hol : oldId = localId := hev
        funext k
        simp only [applyPlayerEvent]
        by_cases hko : k = oldId
        · rw [if_pos hko, hko, hol, hnone]
        · rw [if_neg hko]
    | .upsert q =>
        have hq : q.id = localId := hev
        rw [applyPlayerEvent, if_neg]
        intro hcond
        exact hcond.1 hq
  · intro q k hk
    rw [applyPlayerEvent] at hk
    by_cases hq : q.id ≠ localId ∧ q.is_alive = true
    · exact ⟨hq.2, hq.1⟩
    · rw [if_neg hq] at hk
      exact absurd rfl hk

/-- A sample remote player row used in witnesses. -/
def samplePlayer : Player :=
  ⟨"a", "A", 10, 0, 0, 0, "c", [], true, ""⟩

/-- Witness for C8: after one inbound upsert event from session start, the
cache still maps the local id "p1" to nothing. -/
theorem c8_witness :
    applyPlayerEvent "p1" (PlayerEvent.upsert samplePlayer) emptyCache "p1" = none :=
  (c8_cache_excludes_local "p1"
    (applyPlayerEvent "p1" (PlayerEvent.upsert samplePlayer) emptyCache)
    (ReachableCache.event emptyCache (PlayerEvent.upsert samplePlayer)
      ReachableCache.init)).1

/-! ## C9: death converts each segment into one jittered unit-value food -/

/-- C9: `handleDeath` produces exactly one food record per body segment; the
i-th record sits at the i-th segment's position plus an offset of
`(r - 0.5) * 20` per axis (bounded by 10 in absolute value for any
`Math.random()` draw `r` in [0, 1)), and every record has value 1. -/
theorem c9_death_scatter (segments : List Point) (r1 r2 : ℕ → ℝ) (col : ℕ → String)
    (h1 : ∀ i, 0 ≤ r1 i ∧ r1 i < 1) (h2 : ∀ i, 0 ≤ r2 i ∧ r2 i < 1) :
    (foodFromDeath segments r1 r2 col).length = segments.length
    ∧ ∀ i, i < segments.length →
        ((foodFromDeath segments r1 r2 col).getD i ⟨0, 0, "", 0⟩).value = 1
        ∧ |((foodFromDeath segments r1 r2 col).getD i ⟨0, 0, "", 0⟩).position_x
            - (segments.getD i ⟨0, 0⟩).x| ≤ 10
        ∧ |((foodFromDeath segments r1 r2 col).getD i ⟨0, 0, "", 0⟩).position_y
            - (segments.getD i ⟨0, 0⟩).y| ≤ 10 := by
  constructor
  · simp only [foodFromDeath, List.length_map, List.length_range]
  · intro i hi
    have hgd : (foodFromDeath segments r1 r2 col).getD i ⟨0, 0, "", 0⟩
        = { position_x := (segments.getD i ⟨0, 0⟩).x + (r1 i - 0.5) * 20
            position_y := (segments.getD i ⟨0, 0⟩).y + (r2 i - 0.5) * 20
            color := col i
            value := 1 } := by
      rw [foodFromDeath]
      have hh : i < ((List.range segments.length).map fun j =>
          (⟨(segments.getD j ⟨0, 0⟩).x + (r1 j - 0.5) * 20,
            (segments.getD j ⟨0, 0⟩).y + (r2 j - 0.5) * 20,
            col j, 1⟩ : DeathFood)).length := by simpa using hi
      rw [List.getD_eq_getElem _ _ hh]
      simp [List.getElem_map]
    rw [hgd]
    have hb1 := h1 i
    have hb2 := h2 i
    refine ⟨rfl, ?_, ?_⟩
    · have : (segments.getD i ⟨0, 0⟩).x + (r1 i - 0.5) * 20 - (segments.getD i ⟨0, 0⟩).x
          = (r1 i - 0.5) * 20 := by ring
      rw [this]
      rw [abs_le]
      constructor <;> linarith [hb1.1, hb1.2]
    · have : (segments.getD i ⟨0, 0⟩).y + (r2 i - 0.5) * 20 - (segments.getD i ⟨0, 0⟩).y
          = (r2 i - 0.5) * 20 := by ring
      rw [this]
      rw [abs_le]
      constructor <;> linarith [hb2.1, hb2.2]

/-- Witness for C9: a one-segment snake with random draws 0.5 yields exactly
one food record. -/
theorem c9_witness :
    (foodFromDeath [⟨1, 2⟩] (fun _ => 0.5) (fun _ => 0.5) (fun _ => "c")).length
      = ([⟨1, 2⟩] : List Point).length :=
  (c9_death_scatter [⟨1, 2⟩] (fun _ => 0.5) (fun _ => 0.5) (fun _ => "c")
    (fun i => by norm_num) (fun i => by norm_num)).1

/-! ## Distance evaluation helpers -/

/-- `distPts` on explicit coordinates. -/
theorem distPts_mk (a b c d : ℝ) :
    distPts ⟨a, b⟩ ⟨c, d⟩ = Real.sqrt ((a - c) * (a - c) + (b - d) * (b - d)) := rfl

/-- Distance from a point to itself is zero. -/
theorem distPts_self (p : Point) : distPts p p = 0 := by
  rw [distPts]
  simp

/-- Distance between two points on the same horizontal line. -/
theorem distPts_horiz (a b y : ℝ) : distPts ⟨a, y⟩ ⟨b, y⟩ = |a - b| := by
  rw [distPts_mk, show (a - b) * (a - b) + (y - y) * (y - y) = (a - b) * (a - b) by ring,
    Real.sqrt_mul_self_eq_abs]

/-! ## C3: chain relaxation -/

/-- `relaxPoint` written through `distPts` (the two sqrt expressions are
definitionally the same). -/
theorem relaxPoint_eq (P C : Point) :
    relaxPoint P C =
      if SEGMENT_SPACING < distPts P C then
        (⟨P.x - (P.x - C.x) * (SEGMENT_SPACING / distPts P C),
          P.y - (P.y - C.y) * (SEGMENT_SPACING / distPts P C)⟩ : Point)
      else C := rfl

/-- The stay branch: within spacing, the old point is pushed unchanged. -/
theorem relaxPoint_stay (P C : Point) (h : distPts P C ≤ SEGMENT_SPACING) :
    relaxPoint P C = C := by
  rw [relaxPoint_eq, if_neg (not_lt.mpr h)]

/-- The move branch puts the new point exactly at distance
`SEGMENT_SPACING` from `P`. -/
theorem relaxPoint_move_dist (P C : Point) (h : SEGMENT_SPACING < distPts P C) :
    distPts P (relaxPoint P C) = SEGMENT_SPACING := by
  have hd0 : 0 < distPts P C :=
    lt_trans (by rw [SEGMENT_SPACING]; norm_num) h
  have hr0 : 0 ≤ SEGMENT_SPACING / distPts P C := by
    apply div_nonneg
    · rw [SEGMENT_SPACING]; norm_num
    · exact le_of_lt hd0
  have hsq : distPts P C * distPts P C
      = (P.x - C.x) * (P.x - C.x) + (P.y - C.y) * (P.y - C.y) := by
    rw [distPts]
    exact Real.mul_self_sqrt (add_nonneg (mul_self_nonneg _) (mul_self_nonneg _))
  rw [relaxPoint_eq, if_pos h]
  have hgoal : distPts P
      (⟨P.x - (P.x - C.x) * (SEGMENT_SPACING / distPts P C),
        P.y - (P.y - C.y) * (SEGMENT_SPACING / distPts P C)⟩ : Point)
      = Real.sqrt ((SEGMENT_SPACING / distPts P C) * (SEGMENT_SPACING / distPts P C)
          * ((P.x - C.x) * (P.x - C.x) + (P.y - C.y) * (P.y - C.y))) := by
    rw [distPts]
    congr 1
    ring
  rw [hgoal, ← hsq, Real.sqrt_mul (mul_self_nonneg _), Real.sqrt_mul_self hr0,
    Real.sqrt_mul_self (le_of_lt hd0)]
  exact div_mul_cancel₀ SEGMENT_SPACING (ne_of_gt hd0)

/-- Indexing into the relaxed chain: the point at index `i + 1` is
`relaxPoint` of the new point at index `i` and the OLD point at index `i`
of the consumed list. -/
theorem relaxFollow_getD (l : List Point) :
    ∀ (prev d : Point) (i : ℕ), i < l.length →
      (prev :: relaxFollow prev l).getD (i + 1) d
        = relaxPoint ((prev :: relaxFollow prev l).getD i d) (l.getD i d) := by
  induction l with
  | nil => intro prev d i h; simp at h
  | cons c cs ih =>
      intro prev d i h
      cases i with
      | zero =>
          simp [relaxFollow, List.getD_cons_zero, List.getD_cons_succ]
      | succ j =>
          have hj : j < cs.length := by
            simpa using h
          have := ih (relaxPoint prev c) d j hj
          simpa [relaxFollow, List.getD_cons_succ] using this

/-- Indexing into the full rebuilt chain: for `i + 1 < old.length`,
`new[i+1] = relaxPoint new[i] old[i]` — the second argument is the old
position of the PRECEDING segment, index `i`, not `i + 1`. -/
theorem relaxChain_getD (head : Point) (old : List Point) (i : ℕ)
    (h : i + 1 < old.length) (d : Point) :
    (relaxChain head old).getD (i + 1) d
      = relaxPoint ((relaxChain head old).getD i d) (old.getD i d) := by
  have h1 : i < old.dropLast.length := by
    rw [List.length_dropLast]; omega
  have h2 : i < old.length := by omega
  have hdl : old.dropLast.getD i d = old.getD i d := by
    rw [List.getD_eq_getElem _ _ h1, List.getD_eq_getElem _ _ h2]
    exact List.getElem_dropLast old i h1
  rw [relaxChain, relaxFollow_getD old.dropLast head d i h1, hdl]

/-- C3 counterexample: with new head `(0,0)` and old chain
`[(0,0), (100,0)]`, the code computes segment 1 from the OLD position of
segment 0 (distance 0, stay branch) and leaves it at `(0,0)`, while the
claim (using segment 1's own old position `(100,0)`, distance 100, move
branch) demands `(6,0)`. -/
theorem c3_counterexample :
    (relaxChain ⟨0, 0⟩ [⟨0, 0⟩, ⟨100, 0⟩]).getD 1 ⟨0, 0⟩
        ≠ specRelaxPoint ((relaxChain ⟨0, 0⟩ [⟨0, 0⟩, ⟨100, 0⟩]).getD 0 ⟨0, 0⟩)
            (([⟨0, 0⟩, ⟨100, 0⟩] : List Point).getD 1 ⟨0, 0⟩)
    ∧ (relaxChain ⟨0, 0⟩ [⟨0, 0⟩, ⟨100, 0⟩]).getD 1 ⟨0, 0⟩ = (⟨0, 0⟩ : Point)
    ∧ specRelaxPoint ((relaxChain ⟨0, 0⟩ [⟨0, 0⟩, ⟨100, 0⟩]).getD 0 ⟨0, 0⟩)
        (([⟨0, 0⟩, ⟨100, 0⟩] : List Point).getD 1 ⟨0, 0⟩) = (⟨6, 0⟩ : Point) := by
  have hstay : relaxPoint (⟨0, 0⟩ : Point) ⟨0, 0⟩ = (⟨0, 0⟩ : Point) := by
    apply relaxPoint_stay
    rw [distPts_self, SEGMENT_SPACING]
    norm_num
  have hchain : relaxChain (⟨0, 0⟩ : Point) [⟨0, 0⟩, ⟨100, 0⟩]
      = [⟨0, 0⟩, relaxPoint ⟨0, 0⟩ ⟨0, 0⟩] := rfl
  have hd100 : distPts (⟨0, 0⟩ : Point) ⟨100, 0⟩ = 100 := by
    rw [distPts_horiz, show (0 : ℝ) - 100 = -(100) by norm_num, abs_neg,
      abs_of_nonneg (by norm_num : (0 : ℝ) ≤ 100)]
  have hcode : (relaxChain (⟨0, 0⟩ : Point) [⟨0, 0⟩, ⟨100, 0⟩]).getD 1 ⟨0, 0⟩
      = (⟨0, 0⟩ : Point) := by
    rw [hchain]
    simp [List.getD_cons_succ, List.getD_cons_zero, hstay]
  have hspec : specRelaxPoint ((relaxChain ⟨0, 0⟩ [⟨0, 0⟩, ⟨100, 0⟩]).getD 0 ⟨0, 0⟩)
      (([⟨0, 0⟩, ⟨100, 0⟩] : List Point).getD 1 ⟨0, 0⟩) = (⟨6, 0⟩ : Point) := by
    rw [hchain]
    simp only [List.getD_cons_zero, List.getD_cons_succ]
    rw [specRelaxPoint]
    simp only [hd100, SEGMENT_SPACING]
    rw [if_neg (by norm_num : ¬ (100 : ℝ) ≤ 6)]
    have hx : (0 : ℝ) + (100 - 0) * (6 / 100) = 6 := by norm_num
    have hy : (0 : ℝ) + (0 - 0) * (6 / 100) = 0 := by norm_num
    rw [hx, hy]
  refine ⟨?_, hcode, hspec⟩
  rw [hcode, hspec]
  intro hEq
  have := congrArg Point.x hEq
  norm_num at this

/-- C3 amended: for every non-head index, the post-step position at index
`i + 1` is obtained from P = the new position of the preceding segment and
C = the OLD position of that same preceding segment (`old[i]`, not
`old[i+1]` as the claim states); the step itself leaves C unchanged when
`|P - C| ≤ SEGMENT_SPACING` and otherwise produces the point at distance
exactly `SEGMENT_SPACING` from P toward C. -/
theorem c3_relaxation_amended (head : Point) (old : List Point) (i : ℕ)
    (h : i + 1 < old.length) :
    (relaxChain head old).getD (i + 1) ⟨0, 0⟩
      = relaxPoint ((relaxChain head old).getD i ⟨0, 0⟩) (old.getD i ⟨0, 0⟩)
    ∧ ∀ P C : Point,
        (distPts P C ≤ SEGMENT_SPACING → relaxPoint P C = C)
        ∧ (SEGMENT_SPACING < distPts P C →
            distPts P (relaxPoint P C) = SEGMENT_SPACING
            ∧ relaxPoint P C
                = (⟨P.x + (C.x - P.x) * (SEGMENT_SPACING / distPts P C),
                   P.y + (C.y - P.y) * (SEGMENT_SPACING / distPts P C)⟩ : Point)) := by
  refine ⟨relaxChain_getD head old i h ⟨0, 0⟩, ?_⟩
  intro P C
  refine ⟨relaxPoint_stay P C, ?_⟩
  intro hlt
  refine ⟨relaxPoint_move_dist P C hlt, ?_⟩
  rw [relaxPoint_eq, if_pos hlt]
  have hx : P.x - (P.x - C.x) * (SEGMENT_SPACING / distPts P C)
      = P.x + (C.x - P.x) * (SEGMENT_SPACING / distPts P C) := by ring
  have hy : P.y - (P.y - C.y) * (SEGMENT_SPACING / distPts P C)
      = P.y + (C.y - P.y) * (SEGMENT_SPACING / distPts P C) := by ring
  rw [hx, hy]

/-- Witness for C3 as amended, at head `(0,0)`, old chain
`[(0,0), (100,0)]`, index 0. -/
theorem c3_amended_witness :
    (relaxChain ⟨0, 0⟩ [⟨0, 0⟩, ⟨100, 0⟩]).getD (0 + 1) ⟨0, 0⟩
      = relaxPoint ((relaxChain ⟨0, 0⟩ [⟨0, 0⟩, ⟨100, 0⟩]).getD 0 ⟨0, 0⟩)
          (([⟨0, 0⟩, ⟨100, 0⟩] : List Point).getD 0 ⟨0, 0⟩) :=
  (c3_relaxation_amended ⟨0, 0⟩ [⟨0, 0⟩, ⟨100, 0⟩] 0 (by simp)).1

/-! ## C5: food consumption -/

/-- Unfolding the `forEach` of `checkFoodCollision` into filter and map:
the final score adds the values of exactly the in-range foods, and the
removal list collects exactly their ids, in order. -/
theorem checkFood_foldl (head : Point) (hr : ℝ) :
    ∀ (foods : List Food) (s : ℝ) (acc : List String),
      foods.foldl
        (fun st f => if eats head hr f then (st.1 + f.value, st.2 ++ [f.id]) else st)
        (s, acc)
      = (s + ((foods.filter fun f => decide (eats head hr f)).map Food.value).sum,
         acc ++ ((foods.filter fun f => decide (eats head hr f)).map Food.id)) := by
  intro foods
  induction foods with
  | nil => intro s acc; simp
  | cons f fs ih =>
      intro s acc
      by_cases hf : eats head hr f
      · rw [List.foldl_cons, if_pos hf, ih, List.filter_cons, if_pos (decide_eq_true hf)]
        rw [List.map_cons, List.map_cons, List.sum_cons]
        simp only [Prod.mk.injEq]
        constructor
        · ring
        · simp [List.append_assoc]
      · rw [List.foldl_cons, if_neg hf, ih, List.filter_cons,
          if_neg (by simpa using hf)]

/-- C5: a cached food is consumed (its id queued for removal) iff the
head-to-food distance is strictly below `headRadius + 5` with
`headRadius = 10 + score * 0.1`; the score grows by exactly the values of
the consumed foods; and at score 10 (head radius 11) a food at distance
15.99 is consumed while one at distance 16.0 is not. -/
theorem c5_food_consumption (head : Point) (score : ℝ) (foods : List Food) (f : Food)
    (hf : f ∈ foods) (hnd : (foods.map Food.id).Nodup) :
    (f.id ∈ (checkFoodCollision head score foods).2 ↔ eats head (headRadius score) f)
    ∧ (checkFoodCollision head score foods).1
        = score + ((foods.filter fun g => decide (eats head (headRadius score) g)).map Food.value).sum
    ∧ headRadius 10 = 11
    ∧ eats ⟨0, 0⟩ (headRadius 10) ⟨"f", 15.99, 0, "c", 1⟩
    ∧ ¬ eats ⟨0, 0⟩ (headRadius 10) ⟨"g", 16, 0, "c", 1⟩ := by
  have hck : checkFoodCollision head score foods
      = (score + ((foods.filter fun g => decide (eats head (headRadius score) g)).map Food.value).sum,
         ((foods.filter fun g => decide (eats head (headRadius score) g)).map Food.id)) := by
    rw [checkFoodCollision]
    rw [checkFood_foldl head (headRadius score) foods score []]
    rw [List.nil_append]
  refine ⟨?_, ?_, ?_, ?_, ?_⟩
  · rw [hck]
    constructor
    · intro hmem
      simp only [List.mem_map, List.mem_filter] at hmem
      obtain ⟨g, ⟨hgmem, hgeats⟩, hgid⟩ := hmem
      have hgf : g = f := List.inj_on_of_nodup_map hnd hgmem hf hgid
      rw [← hgf]
      exact of_decide_eq_true hgeats
    · intro heats
      simp only [List.mem_map, List.mem_filter]
      exact ⟨f, ⟨hf, decide_eq_true heats⟩, rfl⟩
  · rw [hck]
  · rw [headRadius]; norm_num
  · rw [eats, headRadius, Food.pos]
    have : distPts (⟨0, 0⟩ : Point) ⟨15.99, 0⟩ = 15.99 := by
      rw [distPts_horiz, show (0 : ℝ) - 15.99 = -(15.99) by norm_num, abs_neg,
        abs_of_nonneg (by norm_num : (0 : ℝ) ≤ 15.99)]
    rw [this]
    norm_num
  · rw [eats, headRadius, Food.pos]
    have : distPts (⟨0, 0⟩ : Point) ⟨16, 0⟩ = 16 := by
      rw [distPts_horiz, show (0 : ℝ) - 16 = -(16) by norm_num, abs_neg,
        abs_of_nonneg (by norm_num : (0 : ℝ) ≤ 16)]
    rw [this]
    norm_num

/-- Witness for C5: a single cached food at distance 15.99 from the head at
score 10 is consumed and its id is queued for removal. -/
theorem c5_witness :
    (⟨"f", 15.99, 0, "c", 1⟩ : Food).id
      ∈ (checkFoodCollision ⟨0, 0⟩ 10 [⟨"f", 15.99, 0, "c", 1⟩]).2 :=
  ((c5_food_consumption ⟨0, 0⟩ 10 [⟨"f", 15.99, 0, "c", 1⟩] ⟨"f", 15.99, 0, "c", 1⟩
      (by simp) (by simp)).1).mpr
    ((c5_food_consumption ⟨0, 0⟩ 10 [⟨"f", 15.99, 0, "c", 1⟩] ⟨"f", 15.99, 0, "c", 1⟩
      (by simp) (by simp)).2.2.2.1)

/-! ## C6: entity collision characterization -/

/-- A linear scan hits iff some scanned index is within the radius. -/
theorem hitScan_iff (head : Point) (r : ℝ) :
    ∀ l : List Point,
      hitScan head r l ↔ ∃ i, i < l.length ∧ distPts head (l.getD i ⟨0, 0⟩) < r := by
  intro l
  induction l with
  | nil =>
      rw [hitScan]
      simp
  | cons s rest ih =>
      rw [hitScan]
      constructor
      · intro hsc
        cases hsc with
        | inl hd => exact ⟨0, by simp, by simpa using hd⟩
        | inr htl =>
            obtain ⟨i, hi, hd⟩ := ih.mp htl
            exact ⟨i + 1, by simpa using hi, by simpa using hd⟩
      · intro hex
        obtain ⟨i, hi, hd⟩ := hex
        cases i with
        | zero => exact Or.inl (by simpa using hd)
        | succ j =>
            refine Or.inr (ih.mpr ⟨j, ?_, ?_⟩)
            · simpa using hi
            · simpa using hd

/-- Dropping the head segment shifts indices by one. -/
theorem drop_one_getD (l : List Point) (j : ℕ) (d : Point) :
    (l.drop 1).getD j d = l.getD (j + 1) d := by
  cases l with
  | nil => simp
  | cons a rest => simp [List.getD_cons_succ]

/-- C6: the remote-entity check triggers death exactly when some cached
remote entity has a segment at index at least 1 (its head segment, index 0,
is never a hazard) strictly closer to the local head than the sum of the
local radius `10 + localScore * 0.1` and the remote radius
`8 + remoteScore * 0.08`. -/
theorem c6_entity_collision_iff (head : Point) (score : ℝ) (others : List Player) :
    entityCollisionTriggersDeath head score others ↔
      ∃ o ∈ others, ∃ i, 1 ≤ i ∧ i < o.segments.length ∧
        distPts head (o.segments.getD i ⟨0, 0⟩)
          < (10 + score * 0.1) + (8 + o.score * 0.08) := by
  rw [entityCollisionTriggersDeath]
  constructor
  · intro hex
    obtain ⟨o, ho, hhit⟩ := hex
    rw [entityHit, hitScan_iff] at hhit
    obtain ⟨j, hj, hd⟩ := hhit
    rw [List.length_drop] at hj
    rw [drop_one_getD] at hd
    refine ⟨o, ho, j + 1, by omega, by omega, ?_⟩
    rw [headRadius, otherRadius] at hd
    exact hd
  · intro hex
    obtain ⟨o, ho, i, hi1, hilen, hd⟩ := hex
    refine ⟨o, ho, ?_⟩
    rw [entityHit, hitScan_iff]
    refine ⟨i - 1, ?_, ?_⟩
    · rw [List.length_drop]; omega
    · rw [drop_one_getD, show i - 1 + 1 = i by omega, headRadius, otherRadius]
      exact hd

/-! ## C1: handleDeath can run twice within one tick -/

/-- A remote entity whose body segment (index 1) sits exactly on the local
head. -/
def otherA : Player :=
  ⟨"a", "A", 10, 0, 0, 0, "c", [⟨1000, 1000⟩, ⟨0, 0⟩], true, ""⟩

/-- A second such remote entity. -/
def otherB : Player :=
  ⟨"b", "B", 10, 0, 0, 0, "c", [⟨1000, 1000⟩, ⟨0, 0⟩], true, ""⟩

/-- C1 (refuting the claim): with two cached remote entities each having a
body segment overlapping the local head, one `checkPlayerCollision` call
invokes `handleDeath()` twice — the `return` inside the `forEach` callback
only exits that entity's loop — and each invocation passes `handleDeath()`'s
guard and reaches `onGameOver`, so the callback does not fire exactly once. -/
theorem c1_handleDeath_called_twice :
    deathCalls ⟨0, 0⟩ 22 [otherA, otherB] [⟨0, 0⟩, ⟨6, 0⟩, ⟨12, 0⟩] = 2 := by
  have hdist : distPts (⟨0, 0⟩ : Point) ⟨0, 0⟩ = 0 := distPts_self _
  have hA : entityHit ⟨0, 0⟩ (headRadius 22) otherA := by
    rw [entityHit, otherA]
    rw [show ([⟨1000, 1000⟩, ⟨0, 0⟩] : List Point).drop 1 = [⟨0, 0⟩] from rfl]
    rw [hitScan]
    left
    rw [hdist, headRadius, otherRadius]
    norm_num
  have hB : entityHit ⟨0, 0⟩ (headRadius 22) otherB := by
    rw [entityHit, otherB]
    rw [show ([⟨1000, 1000⟩, ⟨0, 0⟩] : List Point).drop 1 = [⟨0, 0⟩] from rfl]
    rw [hitScan]
    left
    rw [hdist, headRadius, otherRadius]
    norm_num
  have hself : ¬ selfHit ⟨0, 0⟩ (headRadius 22) [⟨0, 0⟩, ⟨6, 0⟩, ⟨12, 0⟩] := by
    rw [selfHit]
    rw [show ([⟨0, 0⟩, ⟨6, 0⟩, ⟨12, 0⟩] : List Point).drop 3 = [] from rfl]
    rw [hitScan]
    exact not_false
  rw [deathCalls, List.countP_cons, List.countP_cons, List.countP_nil,
    if_pos (decide_eq_true hA), if_pos (decide_eq_true hB), if_neg hself]

end

end Slither
